import Mathlib

/-
  Verification of the SQLite ETL-and-validation pipeline (src/SQlite.py).

  The embedding models the SQLite storage and transaction behaviour that the
  script relies on:
  a store is a list of named tables; a connection tracks the committed
  (on-disk) store, the working view of the current session, and whether a
  transaction is open.  The Python sqlite3 module (since 3.6) begins an
  implicit transaction before DML statements only; DDL executed with no open
  transaction runs in autocommit mode, and closing a connection discards any
  uncommitted transaction.  Values are modelled by SQLite storage classes
  (NULL, INTEGER, TEXT); comparisons between storage classes follow the
  SQLite ordering in which every INTEGER sorts below every TEXT value
  (the tables here are created with untyped columns, so no affinity applies).
-/

namespace SQlite

/-- SQLite storage classes reachable in this pipeline: NULL, INTEGER, TEXT. -/
inductive SQLVal where
  | null
  | int (n : Int)
  | text (s : String)
deriving DecidableEq

/-- A stored table row. -/
abbrev Row := List SQLVal

/-- A table: ordered column names and stored rows. -/
structure Table where
  cols : List String
  rows : List Row
deriving DecidableEq

/-- The relational store: named tables in creation order. -/
abbrev Store := List (String × Table)

/-- SQLite comparison for the WHERE clause of perform_boundary_check.
Comparisons involving NULL are not true; INTEGER compares below TEXT;
within a storage class the natural order is used.  The columns created by
import_csv_to_sqlite carry no declared type, hence no affinity conversion
happens before the comparison. -/
def sqliteLt : SQLVal → SQLVal → Bool
  | SQLVal.null, _ => false
  | _, SQLVal.null => false
  | SQLVal.int m, SQLVal.int n => decide (m < n)
  | SQLVal.int _, SQLVal.text _ => true
  | SQLVal.text _, SQLVal.int _ => false
  | SQLVal.text s, SQLVal.text t => decide (s < t)

/-- Index of a column name in a table header (position used by SELECT). -/
def colIndex (t : Table) (c : String) : Nat :=
  t.cols.findIdx (fun x => x == c)

/-- Look a table up by name. -/
def lookupTable (s : Store) (name : String) : Option Table :=
  (s.find? (fun p => p.1 == name)).map (fun p => p.2)

/-- How many tables of a given name exist in the store. -/
def tableCount (s : Store) (name : String) : Nat :=
  (s.filter (fun p => p.1 == name)).length

/-- Effect of CREATE TABLE IF NOT EXISTS: a no-op when the name exists,
otherwise a fresh empty table with the given columns is appended. -/
def createTableIfNotExists (s : Store) (name : String) (cols : List String) : Store :=
  if (lookupTable s name).isSome then s else s ++ [(name, ⟨cols, []⟩)]

/-- Apply a function to the table of the given name. -/
def updateTable (s : Store) (name : String) (f : Table → Table) : Store :=
  s.map (fun p => if p.1 == name then (p.1, f p.2) else p)

/-- Errors raised by the sqlite3 layer (all caught by the except clauses of
the script). -/
inductive SqlError where
  | operationalError
  | programmingError
deriving DecidableEq

/-- cursor.executemany of the parameterised INSERT: rows are bound one after
the other; a row whose arity differs from the placeholder count raises, with
the earlier rows already inserted into the session. -/
def insertLoop (t : Table) (ncols : Nat) : List Row → Table × Option SqlError
  | [] => (t, none)
  | r :: rs =>
      if r.length = ncols then insertLoop { t with rows := t.rows ++ [r] } ncols rs
      else (t, some SqlError.programmingError)

/-- A sqlite3 connection: the committed (durable) store, the working view of
the session, and whether an implicit transaction is open. -/
structure Conn where
  committed : Store
  working : Store
  txnOpen : Bool
deriving DecidableEq

/-- sqlite3.connect on a store (creating-if-absent is external file IO). -/
def connect (disk : Store) : Conn := ⟨disk, disk, false⟩

/-- conn.commit: the working state becomes durable and the transaction ends. -/
def conn_commit (c : Conn) : Conn := ⟨c.working, c.working, false⟩

/-- conn.close: an open transaction is discarded; what remains on disk is the
committed store. -/
def conn_close (c : Conn) : Store := c.committed

/-- Execute a DDL statement: inside an open transaction it stays pending;
with no open transaction it runs in autocommit mode and is durable at once. -/
def execDDL (c : Conn) (f : Store → Store) : Conn :=
  if c.txnOpen then { c with working := f c.working }
  else ⟨f c.working, f c.working, false⟩

/-- Execute a DML statement: sqlite3 begins an implicit transaction, so the
effect is pending until a commit. -/
def execDML (c : Conn) (f : Store → Store) : Conn :=
  { c with working := f c.working, txnOpen := true }

/-- import_csv_to_sqlite (src/SQlite.py lines 34-64): the header row gives
the column names, CREATE TABLE IF NOT EXISTS is executed, the remaining rows
are inserted positionally through bound parameters, and conn.commit runs
once at the end.  A sqlite3 error is caught and reported (second component);
in that case the commit is skipped.  File IO is external: the function takes
the parsed header and data rows. -/
def import_csv_to_sqlite (c : Conn) (headers : List String) (rows : List (List String))
    (table_name : String) : Conn × Option SqlError :=
  let c1 := execDDL c (fun s => createTableIfNotExists s table_name headers)
  match lookupTable c1.working table_name with
  | none => (c1, some SqlError.operationalError)
  | some t =>
      if t.cols.length = headers.length then
        let p := insertLoop t headers.length (rows.map (fun r => r.map SQLVal.text))
        let c2 := execDML c1 (fun s => updateTable s table_name (fun _ => p.1))
        match p.2 with
        | none => (conn_commit c2, none)
        | some e => (c2, some e)
      else (c1, some SqlError.operationalError)

/-- log_query (src/SQlite.py lines 96-112): CREATE TABLE IF NOT EXISTS
query_logs, then a parameterised INSERT of the text.  No commit is issued. -/
def log_query (c : Conn) (q : String) : Conn :=
  let c1 := execDDL c (fun s => createTableIfNotExists s "query_logs" ["query_text"])
  execDML c1 (fun s =>
    updateTable s "query_logs" (fun t => { t with rows := t.rows ++ [[SQLVal.text q]] }))

/-- perform_boundary_check (src/SQlite.py lines 151-177): SELECT * FROM t
WHERE column < ? OR column > ? with the integer bounds bound as parameters;
the violating rows are returned in full. -/
def perform_boundary_check (t : Table) (column_name : String) (min_value max_value : Int) :
    List Row :=
  let i := colIndex t column_name
  t.rows.filter (fun r =>
    sqliteLt (r.getD i SQLVal.null) (SQLVal.int min_value)
      || sqliteLt (SQLVal.int max_value) (r.getD i SQLVal.null))

/-- Python-level errors that escape the except sqlite3.Error clauses. -/
inductive PyError where
  | typeError
  | valueError
deriving DecidableEq

/-- Characters of the local part of the email pattern, [a-zA-Z0-9._%+-]. -/
def isLocalChar (c : Char) : Bool :=
  c.isAlphanum || c == '.' || c == '_' || c == '%' || c == '+' || c == '-'

/-- Characters of the domain part of the email pattern, [a-zA-Z0-9.-]. -/
def isDomainChar (c : Char) : Bool :=
  c.isAlphanum || c == '.' || c == '-'

/-- The compiled pattern of validate_email_addresses with re.match
semantics: anchored at the start, and the final anchor matches at the end
of the string or just before a newline that ends the string, as the Python
dollar anchor does.  Because the top-level label admits only letters, a
match can never consume a final newline itself, so trying both anchor
positions is exactly dropping one trailing newline first.  The body is a
nonempty local part over [a-zA-Z0-9._%+-], an at sign, a nonempty domain
over [a-zA-Z0-9.-], a dot, and a top-level label of two or more letters.
Since the top-level label contains no dot, the separating dot is the last
dot after the at sign, which makes the backtracking search deterministic. -/
def emailMatch (s : String) : Bool :=
  let cs0 := s.toList
  let cs := if cs0.getLast? = some '\n' then cs0.dropLast else cs0
  let loc := cs.takeWhile isLocalChar
  match cs.drop loc.length with
  | '@' :: after =>
      let revAfter := after.reverse
      let tld := revAfter.takeWhile Char.isAlpha
      match revAfter.drop tld.length with
      | '.' :: revDom =>
          decide (loc ≠ []) && decide (2 ≤ tld.length)
            && decide (revDom ≠ []) && revDom.all isDomainChar
      | _ => false
  | _ => false

/-- validate_email_addresses (src/SQlite.py lines 67-93): the fetched column
values are tested left to right against the email pattern and the failing
values collected.  A NULL value reaches re.match as Python None and raises
TypeError, which the except sqlite3.Error clause does not catch. -/
def validate_email_addresses : List (Option String) → Except PyError (List String)
  | [] => Except.ok []
  | none :: _ => Except.error PyError.typeError
  | some e :: rest =>
      match validate_email_addresses rest with
      | Except.error err => Except.error err
      | Except.ok l => Except.ok (if emailMatch e then l else e :: l)

/-- Digit run of the Python int literal grammar: one or more ASCII digits,
with single underscores allowed between digits. -/
def intDigits (acc : Nat) (prevDigit : Bool) : List Char → Option Nat
  | [] => if prevDigit then some acc else none
  | c :: cs =>
      if c.isDigit then intDigits (10 * acc + (c.toNat - 48)) true cs
      else if c == '_' then
        if prevDigit then intDigits acc false cs else none
      else none

/-- Strip leading and trailing whitespace, as Python int does on strings. -/
def pyStripWS (cs : List Char) : List Char :=
  ((cs.dropWhile Char.isWhitespace).reverse.dropWhile Char.isWhitespace).reverse

/-- Python int applied to a string: optional surrounding whitespace, an
optional sign, then a nonempty ASCII digit run; anything else raises
ValueError. -/
def pyIntOfString (s : String) : Except PyError Int :=
  match pyStripWS s.toList with
  | '+' :: rest =>
      match intDigits 0 false rest with
      | some n => Except.ok (Int.ofNat n)
      | none => Except.error PyError.valueError
  | '-' :: rest =>
      match intDigits 0 false rest with
      | some n => Except.ok (-(Int.ofNat n))
      | none => Except.error PyError.valueError
  | cs =>
      match intDigits 0 false cs with
      | some n => Except.ok (Int.ofNat n)
      | none => Except.error PyError.valueError

/-- Python int applied to a fetched SQLite value: integers pass through,
text is parsed, NULL (Python None) raises TypeError. -/
def pyInt : SQLVal → Except PyError Int
  | SQLVal.int n => Except.ok n
  | SQLVal.text s => pyIntOfString s
  | SQLVal.null => Except.error PyError.typeError

/-- The list comprehension of validate_age_entries that converts every age
with int, evaluated left to right; the first failing conversion raises. -/
def convAges : List (SQLVal × SQLVal) → Except PyError (List (SQLVal × Int))
  | [] => Except.ok []
  | (k, v) :: rest =>
      match pyInt v with
      | Except.error e => Except.error e
      | Except.ok n =>
          match convAges rest with
          | Except.error e => Except.error e
          | Except.ok l => Except.ok ((k, n) :: l)

/-- validate_age_entries (src/SQlite.py lines 180-213): SELECT user_id, age
FROM table (the column_name parameter is never used), every age converted
with int, and the pairs below the threshold collected. -/
def validate_age_entries (t : Table) (column_name : String) (age_threshold : Int) :
    Except PyError (List (SQLVal × Int)) :=
  let i := colIndex t "user_id"
  let j := colIndex t "age"
  match convAges (t.rows.map (fun r => (r.getD i SQLVal.null, r.getD j SQLVal.null))) with
  | Except.error e => Except.error e
  | Except.ok l => Except.ok (l.filter (fun p => decide (p.2 < age_threshold)))

/-- A two-column user_id/age table holding the given key and textual age
pairs, as produced by the CSV loader. -/
def ageTableOf (kvs : List (SQLVal × String)) : Table :=
  ⟨["user_id", "age"], kvs.map (fun p => [p.1, SQLVal.text p.2])⟩

/-- Distinct elements in first-seen order, as a Python dict (and hence
collections.Counter) preserves insertion order. -/
def firstSeenAux (seen : List String) : List String → List String
  | [] => []
  | q :: qs =>
      if q ∈ seen then firstSeenAux seen qs
      else q :: firstSeenAux (q :: seen) qs

/-- Distinct logged texts in first-seen order. -/
def firstSeen (qs : List String) : List String := firstSeenAux [] qs

/-- Counter items: each distinct text, in first-seen order, with its count. -/
def counterItems (qs : List String) : List (String × Nat) :=
  (firstSeen qs).map (fun q => (q, qs.count q))

/-- Descending insertion by count: the pair is placed before the first pair
of no greater count, passing only strictly greater counts.  The sort below
feeds pairs in reverse order, so a pair inserted later comes earlier in the
counter and lands in front of the pairs of equal count it meets — equal
counts end up in insertion (first-seen) order, the stable order
Counter.most_common produces. -/
def insertDesc (x : String × Nat) : List (String × Nat) → List (String × Nat)
  | [] => [x]
  | y :: ys => if y.2 ≤ x.2 then x :: y :: ys else y :: insertDesc x ys

/-- Stable sort by count descending: counts descend and pairs of equal
count keep the first-seen order of the counter items, as
Counter.most_common does. -/
def sortCountDesc : List (String × Nat) → List (String × Nat)
  | [] => []
  | x :: xs => insertDesc x (sortCountDesc xs)

/-- predict_most_repeatable_queries (src/SQlite.py lines 115-148): the
query_logs texts are counted with collections.Counter and the top_n most
common pairs returned, count descending, ties in first-seen order. -/
def predict_most_repeatable_queries (qs : List String) (top_n : Nat) : List (String × Nat) :=
  (sortCountDesc (counterItems qs)).take top_n

/-- A statement prepared with parameter binding: the SQL text and the bound
values, which sqlite3 keeps separate from the text. -/
structure Stmt where
  sql : String
  params : List SQLVal
deriving DecidableEq

/-- The INSERT text built by import_csv_to_sqlite: it interpolates the table
name and one placeholder per header, never the values. -/
def insert_query (table_name : String) (ncols : Nat) : String :=
  "INSERT INTO " ++ table_name ++ " VALUES (" ++
    String.intercalate ", " (List.replicate ncols "?") ++ ");"

/-- The CREATE text built by import_csv_to_sqlite from the header names. -/
def create_table_query (table_name : String) (headers : List String) : String :=
  "CREATE TABLE IF NOT EXISTS " ++ table_name ++ " (" ++
    String.intercalate ", " headers ++ ");"

/-- The bound statement executemany runs for one data row. -/
def loader_insert_stmt (table_name : String) (headers : List String) (row : List String) :
    Stmt :=
  ⟨insert_query table_name headers.length, row.map SQLVal.text⟩

/-- The bound statement log_query runs: a fixed SQL literal, the text bound
as its single parameter. -/
def log_query_stmt (q : String) : Stmt :=
  ⟨"INSERT INTO query_logs (query_text) VALUES (?)", [SQLVal.text q]⟩

/-- Executing a bound INSERT appends exactly the bound parameters as a row:
bound values are data, never part of the statement text. -/
def execBoundInsert (t : Table) (st : Stmt) : Table :=
  { t with rows := t.rows ++ [st.params] }

/-- The query main logs (src/SQlite.py line 224). -/
def sampleQuery : String := "SELECT * FROM Users WHERE email LIKE '%@example.com';"

/-- Claim C2: every row value of the loader and every text passed to
log_query is carried as a bound parameter: the SQL text of the statement is
the same whatever the values are (so no value, quotes and metacharacters
included, can alter the statement structure), and executing the bound
insert stores exactly the input values as the new row. -/
theorem bound_values_inert :
    ∀ (table_name : String) (headers : List String) (row row' : List String)
      (q q' : String) (t : Table),
      (loader_insert_stmt table_name headers row).sql
          = (loader_insert_stmt table_name headers row').sql
      ∧ (loader_insert_stmt table_name headers row).params = row.map SQLVal.text
      ∧ (log_query_stmt q).sql = (log_query_stmt q').sql
      ∧ (log_query_stmt q).params = [SQLVal.text q]
      ∧ (execBoundInsert t (loader_insert_stmt table_name headers row)).rows
          = t.rows ++ [row.map SQLVal.text]
      ∧ (execBoundInsert t (log_query_stmt q)).rows = t.rows ++ [[SQLVal.text q]] := by
  intro table_name headers row row' q q' t
  exact ⟨rfl, rfl, rfl, rfl, rfl, rfl⟩

/-- Claim C10: validate_age_entries gives the same result whatever column
name is passed, because the query it runs always reads the fixed columns
user_id and age of the given table. -/
theorem validate_age_ignores_column_name (t : Table) (c1 c2 : String) (th : Int) :
    validate_age_entries t c1 th = validate_age_entries t c2 th := rfl

/-- Claim C4, counterexample: on a list holding a NULL value the validator
does not report the NULL as a violation; re.match receives Python None and
raises TypeError instead. -/
theorem validate_email_null_typeerror :
    validate_email_addresses [none] = Except.error PyError.typeError := rfl

/-- Claim C5, counterexample: the stored text "25" reads as the number 25,
inside the bounds (20, 40), yet the boundary check flags the row: the code
neither coerces text to a number nor fails with a type error, it compares
with the SQLite cross-class ordering in which text sorts above any number. -/
theorem boundary_check_text_in_range_flagged :
    perform_boundary_check ⟨["age"], [[SQLVal.text "25"]]⟩ "age" 20 40
        = [[SQLVal.text "25"]]
      ∧ pyIntOfString "25" = Except.ok 25
      ∧ (20 : Int) ≤ 25 ∧ (25 : Int) ≤ 40 :=
  ⟨rfl, rfl, by decide, by decide⟩

/-- Claim C3: after the exact flow of main — import with its commit, then
log_query, then conn.close — the logged entry is visible in the session
(first conjunct) but the reopened store holds an empty query_logs table
(second conjunct): log_query never commits, so closing the connection
discards the pending INSERT and the entry does not persist across runs. -/
theorem log_query_not_persisted :
    lookupTable (log_query (import_csv_to_sqlite (connect []) ["user_id", "age", "email"]
          [["1", "25", "a@b.com"]] "Users").1 sampleQuery).working "query_logs"
        = some ⟨["query_text"], [[SQLVal.text sampleQuery]]⟩
      ∧ lookupTable (conn_close (log_query (import_csv_to_sqlite (connect [])
          ["user_id", "age", "email"] [["1", "25", "a@b.com"]] "Users").1 sampleQuery))
          "query_logs"
        = some ⟨["query_text"], []⟩ :=
  ⟨rfl, rfl⟩

/-- Claim C4, amended: for every list of non-NULL column values the
validator reports as violations exactly the values that fail the email
pattern, in order; the empty string fails the pattern, a value ending in a
single newline matches when its body does (the dollar anchor of re.match
matches before a trailing newline), and on the example list the 2nd and
3rd values are reported and the 1st is not.  (A NULL value instead raises
TypeError, see the counterexample.) -/
theorem validate_email_filter :
    (∀ vals : List String,
        validate_email_addresses (vals.map some)
          = Except.ok (vals.filter (fun s => !emailMatch s)))
      ∧ emailMatch "a@b.com" = true
      ∧ emailMatch "a@b.com\n" = true
      ∧ emailMatch "not-an-email" = false
      ∧ emailMatch "" = false
      ∧ validate_email_addresses [some "a@b.com", some "not-an-email", some ""]
          = Except.ok ["not-an-email", ""] := by
  refine ⟨?_, by decide, by decide, by decide, by decide, rfl⟩
  intro vals
  induction vals with
  | nil => rfl
  | cons v vs ih =>
      simp only [List.map_cons, validate_email_addresses, ih, List.filter_cons]
      by_cases h : emailMatch v <;> simp [h]

/-- When every textual age parses, the conversion comprehension succeeds
and yields the parsed integers, keys untouched. -/
theorem convAges_ok (kvs : List (SQLVal × String × Int))
    (h : ∀ e ∈ kvs, pyIntOfString e.2.1 = Except.ok e.2.2) :
    convAges (kvs.map (fun e => (e.1, SQLVal.text e.2.1)))
      = Except.ok (kvs.map (fun e => (e.1, e.2.2))) := by
  induction kvs with
  | nil => rfl
  | cons e es ih =>
      have he : pyIntOfString e.2.1 = Except.ok e.2.2 := h e (List.mem_cons_self e es)
      have hrest := ih (fun x hx => h x (List.mem_cons_of_mem e hx))
      simp only [List.map_cons, convAges, pyInt, he, hrest]

/-- Claim C6: on a user_id/age table whose age texts all parse as integers,
validate_age_entries converts each age and flags exactly the pairs whose
age is below the threshold; on a table holding the non-numeric age "abc"
it fails with the explicit conversion error (Python ValueError from int)
rather than skipping or defaulting the value. -/
theorem validate_age_flags_below_threshold (kvs : List (SQLVal × String × Int))
    (age_threshold : Int)
    (h : ∀ e ∈ kvs, pyIntOfString e.2.1 = Except.ok e.2.2) :
    validate_age_entries (ageTableOf (kvs.map (fun e => (e.1, e.2.1)))) "age" age_threshold
        = Except.ok ((kvs.map (fun e => (e.1, e.2.2))).filter
            (fun p => decide (p.2 < age_threshold)))
      ∧ validate_age_entries (ageTableOf [(SQLVal.int 3, "abc")]) "age" age_threshold
        = Except.error PyError.valueError := by
  constructor
  · have hrows : (ageTableOf (kvs.map (fun e => (e.1, e.2.1)))).rows.map
        (fun r => (r.getD (colIndex (ageTableOf (kvs.map (fun e => (e.1, e.2.1)))) "user_id")
            SQLVal.null,
          r.getD (colIndex (ageTableOf (kvs.map (fun e => (e.1, e.2.1)))) "age") SQLVal.null))
        = kvs.map (fun e => (e.1, SQLVal.text e.2.1)) := by
      simp only [ageTableOf, colIndex, List.map_map, Function.comp]
      refine List.map_congr_left ?_
      intro e _
      exact Prod.ext rfl rfl
    simp only [validate_age_entries, hrows, convAges_ok kvs h]
  · rfl

/-- Claim C6, witness: for the table [(1, "17"), (2, "22")] and threshold 18
the validator flags id 1 only. -/
theorem validate_age_flags_below_threshold_witness :
    (∀ e ∈ ([(SQLVal.int 1, ("17", (17 : Int))), (SQLVal.int 2, ("22", 22))] :
        List (SQLVal × String × Int)), pyIntOfString e.2.1 = Except.ok e.2.2)
      ∧ validate_age_entries (ageTableOf [(SQLVal.int 1, "17"), (SQLVal.int 2, "22")]) "age" 18
        = Except.ok [(SQLVal.int 1, 17)] := by
  have h : ∀ e ∈ ([(SQLVal.int 1, ("17", (17 : Int))), (SQLVal.int 2, ("22", 22))] :
      List (SQLVal × String × Int)), pyIntOfString e.2.1 = Except.ok e.2.2 := by
    intro e he
    simp only [List.mem_cons, List.not_mem_nil, or_false] at he
    rcases he with rfl | rfl <;> rfl
  refine ⟨h, ?_⟩
  have hmain := (validate_age_flags_below_threshold
    [(SQLVal.int 1, ("17", (17 : Int))), (SQLVal.int 2, ("22", 22))] 18 h).1
  simpa using hmain

/-- Claim C8: on a table whose checked column stores integers, the boundary
check flags exactly the rows whose value is strictly below the minimum or
strictly above the maximum — values equal to a bound are not flagged — and
returns the full row for each violation. -/
theorem boundary_check_numeric_exact (t : Table) (column_name : String)
    (min_value max_value : Int)
    (h : ∀ r ∈ t.rows, ∃ n : Int, r.getD (colIndex t column_name) SQLVal.null = SQLVal.int n) :
    perform_boundary_check t column_name min_value max_value
      = t.rows.filter (fun r =>
          match r.getD (colIndex t column_name) SQLVal.null with
          | SQLVal.int n => decide (n < min_value) || decide (max_value < n)
          | _ => false) := by
  unfold perform_boundary_check
  refine List.filter_congr ?_
  intro r hr
  obtain ⟨n, hn⟩ := h r hr
  rw [hn]
  rfl

/-- Claim C8, witness: with column values 10, 25 and 45 and bounds (20, 40)
the rows holding 10 and 45 are flagged. -/
theorem boundary_check_numeric_exact_witness :
    (∀ r ∈ (⟨["v"], [[SQLVal.int 10], [SQLVal.int 25], [SQLVal.int 45]]⟩ : Table).rows,
        ∃ n : Int, r.getD (colIndex ⟨["v"], [[SQLVal.int 10], [SQLVal.int 25],
          [SQLVal.int 45]]⟩ "v") SQLVal.null = SQLVal.int n)
      ∧ perform_boundary_check ⟨["v"], [[SQLVal.int 10], [SQLVal.int 25], [SQLVal.int 45]]⟩
          "v" 20 40 = [[SQLVal.int 10], [SQLVal.int 45]] := by
  have h : ∀ r ∈ (⟨["v"], [[SQLVal.int 10], [SQLVal.int 25], [SQLVal.int 45]]⟩ : Table).rows,
      ∃ n : Int, r.getD (colIndex ⟨["v"], [[SQLVal.int 10], [SQLVal.int 25],
        [SQLVal.int 45]]⟩ "v") SQLVal.null = SQLVal.int n := by
    intro r hr
    simp only [List.mem_cons, List.not_mem_nil, or_false] at hr
    rcases hr with rfl | rfl | rfl
    · exact ⟨10, rfl⟩
    · exact ⟨25, rfl⟩
    · exact ⟨45, rfl⟩
  refine ⟨h, ?_⟩
  have hmain := boundary_check_numeric_exact
    ⟨["v"], [[SQLVal.int 10], [SQLVal.int 25], [SQLVal.int 45]]⟩ "v" 20 40 h
  rw [hmain]
  rfl

/-- Claim C5, amended: on a column whose stored representation is text the
boundary check neither coerces nor fails with a type error; under the
SQLite cross-class ordering every text value sorts above the numeric upper
bound, so every row of the table is flagged, whatever its numeric content
and whatever the bounds. -/
theorem boundary_check_text_all_flagged (t : Table) (column_name : String)
    (min_value max_value : Int)
    (h : ∀ r ∈ t.rows, ∃ s : String,
        r.getD (colIndex t column_name) SQLVal.null = SQLVal.text s) :
    perform_boundary_check t column_name min_value max_value = t.rows := by
  unfold perform_boundary_check
  refine List.filter_eq_self.mpr ?_
  intro r hr
  obtain ⟨s, hs⟩ := h r hr
  rw [hs]
  rfl

/-- Claim C5, amended, witness: the single text row "25" is flagged against
the bounds (20, 40). -/
theorem boundary_check_text_all_flagged_witness :
    (∀ r ∈ (⟨["age"], [[SQLVal.text "25"]]⟩ : Table).rows,
        ∃ s : String, r.getD (colIndex ⟨["age"], [[SQLVal.text "25"]]⟩ "age") SQLVal.null
          = SQLVal.text s)
      ∧ perform_boundary_check ⟨["age"], [[SQLVal.text "25"]]⟩ "age" 20 40
        = (⟨["age"], [[SQLVal.text "25"]]⟩ : Table).rows := by
  have h : ∀ r ∈ (⟨["age"], [[SQLVal.text "25"]]⟩ : Table).rows,
      ∃ s : String, r.getD (colIndex ⟨["age"], [[SQLVal.text "25"]]⟩ "age") SQLVal.null
        = SQLVal.text s := by
    intro r hr
    simp only [List.mem_cons, List.not_mem_nil, or_false] at hr
    rcases hr with rfl
    exact ⟨"25", rfl⟩
  exact ⟨h, boundary_check_text_all_flagged ⟨["age"], [[SQLVal.text "25"]]⟩ "age" 20 40 h⟩

/-- The working view after a DDL step is the updated store, whether or not
a transaction was open. -/
theorem execDDL_working (c : Conn) (f : Store → Store) :
    (execDDL c f).working = f c.working := by
  unfold execDDL
  split <;> rfl

/-- Appending a table of a name absent from the store makes it the lookup
result for that name. -/
theorem lookupTable_append (s : Store) (name : String) (t : Table)
    (h : lookupTable s name = none) :
    lookupTable (s ++ [(name, t)]) name = some t := by
  have h0 : s.find? (fun p => p.1 == name) = none := by
    cases hfind : s.find? (fun p => p.1 == name) with
    | none => rfl
    | some p => unfold lookupTable at h; rw [hfind] at h; simp at h
  unfold lookupTable
  rw [List.find?_append, h0]
  simp [List.find?]

/-- Updating a named table rewrites the lookup result through the update. -/
theorem lookupTable_update (s : Store) (name : String) (f : Table → Table) :
    lookupTable (updateTable s name f) name = (lookupTable s name).map f := by
  induction s with
  | nil => rfl
  | cons p ps ih =>
      unfold updateTable lookupTable at ih ⊢
      by_cases hp : p.1 == name
      · simp [List.find?, hp]
      · simpa [List.find?, hp] using ih

/-- Updating a named table never changes how many tables carry any name. -/
theorem tableCount_update (s : Store) (name m : String) (f : Table → Table) :
    tableCount (updateTable s name f) m = tableCount s m := by
  induction s with
  | nil => rfl
  | cons p ps ih =>
      have hfst : (if (p.1 == name) = true then (p.1, f p.2) else p).1 = p.1 := by
        split <;> rfl
      unfold updateTable tableCount at ih ⊢
      simp only [List.map_cons, List.filter_cons, hfst]
      cases hm : (p.1 == m) with
      | true => simpa [hm] using ih
      | false => simpa [hm] using ih

/-- When every row has the arity of the placeholders, executemany inserts
all rows in order and raises no error. -/
theorem insertLoop_ok (t : Table) (n : Nat) (rs : List Row)
    (h : ∀ r ∈ rs, r.length = n) :
    insertLoop t n rs = (⟨t.cols, t.rows ++ rs⟩, none) := by
  induction rs generalizing t with
  | nil => simp [insertLoop]
  | cons r rest ih =>
      have hr : r.length = n := h r (List.mem_cons_self r rest)
      rw [insertLoop, if_pos hr, ih _ (fun x hx => h x (List.mem_cons_of_mem r hx))]
      simp

/-- Claim C1: loading a source whose data rows all have the arity of the
header into a store where the table name is fresh leaves, in the committed
store, a table whose columns are exactly the header names in order and
which holds exactly as many rows as the source had data rows. -/
theorem import_csv_roundtrip (c : Conn) (headers : List String) (rows : List (List String))
    (table_name : String)
    (hfresh : lookupTable c.working table_name = none)
    (harity : ∀ r ∈ rows, r.length = headers.length) :
    (lookupTable ((import_csv_to_sqlite c headers rows table_name).1).committed
        table_name).map Table.cols = some headers
      ∧ (lookupTable ((import_csv_to_sqlite c headers rows table_name).1).committed
          table_name).map (fun t => t.rows.length) = some rows.length := by
  have hw1 : (execDDL c (fun s => createTableIfNotExists s table_name headers)).working
      = c.working ++ [(table_name, ⟨headers, []⟩)] := by
    rw [execDDL_working]
    unfold createTableIfNotExists
    rw [hfresh]
    rfl
  have hlook : lookupTable (execDDL c
      (fun s => createTableIfNotExists s table_name headers)).working table_name
      = some ⟨headers, []⟩ := by
    rw [hw1]
    exact lookupTable_append c.working table_name ⟨headers, []⟩ hfresh
  have harity2 : ∀ r ∈ rows.map (fun r => r.map SQLVal.text),
      r.length = headers.length := by
    intro r hr
    obtain ⟨r0, hr0, rfl⟩ := List.mem_map.mp hr
    simpa using harity r0 hr0
  have hloop := insertLoop_ok ⟨headers, []⟩ headers.length
    (rows.map (fun r => r.map SQLVal.text)) harity2
  have hbase : import_csv_to_sqlite c headers rows table_name
      = (conn_commit (execDML
          (execDDL c (fun s => createTableIfNotExists s table_name headers))
          (fun s => updateTable s table_name
            (fun _ => ⟨headers, [] ++ rows.map (fun r => r.map SQLVal.text)⟩))), none) := by
    unfold import_csv_to_sqlite
    simp only [hlook, hloop]
    simp only [if_true]
  rw [hbase]
  simp only [conn_commit, execDML]
  rw [lookupTable_update, hlook]
  simp

/-- Claim C1, witness: loading one data row into a fresh table named T with
header [a] gives one row and the header column. -/
theorem import_csv_roundtrip_witness :
    lookupTable (connect []).working "T" = none
      ∧ (∀ r ∈ [["x"]], List.length r = List.length ["a"])
      ∧ (lookupTable ((import_csv_to_sqlite (connect []) ["a"] [["x"]] "T").1).committed
          "T").map Table.cols = some ["a"]
      ∧ (lookupTable ((import_csv_to_sqlite (connect []) ["a"] [["x"]] "T").1).committed
          "T").map (fun t => t.rows.length) = some 1 := by
  have h1 : lookupTable (connect []).working "T" = none := rfl
  have h2 : ∀ r ∈ [["x"]], List.length r = List.length ["a"] := by decide
  have hmain := import_csv_roundtrip (connect []) ["a"] [["x"]] "T" h1 h2
  exact ⟨h1, h2, hmain.1, hmain.2⟩

/-- Claim C9: when the target table already exists (uniquely, with matching
schema), CREATE TABLE IF NOT EXISTS is a no-op on the store, the load
raises no error, and exactly one table of that name remains, both in the
session view and, after the commit, on disk. -/
theorem import_idempotent_create (c : Conn) (headers : List String)
    (rows : List (List String)) (table_name : String) (t0 : Table)
    (hex : lookupTable c.working table_name = some t0)
    (hcols : t0.cols = headers)
    (harity : ∀ r ∈ rows, r.length = headers.length)
    (hcount : tableCount c.working table_name = 1) :
    createTableIfNotExists c.working table_name headers = c.working
      ∧ (import_csv_to_sqlite c headers rows table_name).2 = none
      ∧ tableCount ((import_csv_to_sqlite c headers rows table_name).1).working
          table_name = 1
      ∧ tableCount ((import_csv_to_sqlite c headers rows table_name).1).committed
          table_name = 1 := by
  have hC : createTableIfNotExists c.working table_name headers = c.working := by
    unfold createTableIfNotExists
    rw [hex]
    rfl
  have hw1 : (execDDL c (fun s => createTableIfNotExists s table_name headers)).working
      = c.working := by
    rw [execDDL_working, hC]
  have hlook : lookupTable (execDDL c
      (fun s => createTableIfNotExists s table_name headers)).working table_name
      = some t0 := by
    rw [hw1]
    exact hex
  have harity2 : ∀ r ∈ rows.map (fun r => r.map SQLVal.text),
      r.length = headers.length := by
    intro r hr
    obtain ⟨r0, hr0, rfl⟩ := List.mem_map.mp hr
    simpa using harity r0 hr0
  have hloop := insertLoop_ok t0 headers.length
    (rows.map (fun r => r.map SQLVal.text)) harity2
  have hlen : t0.cols.length = headers.length := by rw [hcols]
  have hbase : import_csv_to_sqlite c headers rows table_name
      = (conn_commit (execDML
          (execDDL c (fun s => createTableIfNotExists s table_name headers))
          (fun s => updateTable s table_name
            (fun _ => ⟨t0.cols, t0.rows ++ rows.map (fun r => r.map SQLVal.text)⟩))), none) := by
    unfold import_csv_to_sqlite
    simp only [hlook, hloop]
    rw [if_pos hlen]
  have hcnt : tableCount (updateTable (execDDL c
      (fun s => createTableIfNotExists s table_name headers)).working table_name
      (fun _ => (⟨t0.cols, t0.rows ++ rows.map (fun r => r.map SQLVal.text)⟩ : Table)))
      table_name = 1 := by
    rw [tableCount_update, hw1]
    exact hcount
  refine ⟨hC, ?_, ?_, ?_⟩
  · rw [hbase]
  · rw [hbase]
    simpa only [conn_commit, execDML] using hcnt
  · rw [hbase]
    simpa only [conn_commit, execDML] using hcnt

/-- Claim C9, witness: a second load of the same one-row source into the
already existing table T errors nowhere and leaves one table named T. -/
theorem import_idempotent_create_witness :
    lookupTable (connect [("T", ⟨["a"], [[SQLVal.text "x"]]⟩)]).working "T"
        = some ⟨["a"], [[SQLVal.text "x"]]⟩
      ∧ (Table.cols ⟨["a"], [[SQLVal.text "x"]]⟩) = ["a"]
      ∧ (∀ r ∈ [["x"]], List.length r = List.length ["a"])
      ∧ tableCount (connect [("T", ⟨["a"], [[SQLVal.text "x"]]⟩)]).working "T" = 1
      ∧ createTableIfNotExists (connect [("T", ⟨["a"], [[SQLVal.text "x"]]⟩)]).working "T"
          ["a"] = (connect [("T", ⟨["a"], [[SQLVal.text "x"]]⟩)]).working
      ∧ (import_csv_to_sqlite (connect [("T", ⟨["a"], [[SQLVal.text "x"]]⟩)]) ["a"] [["x"]]
          "T").2 = none
      ∧ tableCount ((import_csv_to_sqlite (connect [("T", ⟨["a"], [[SQLVal.text "x"]]⟩)])
          ["a"] [["x"]] "T").1).working "T" = 1
      ∧ tableCount ((import_csv_to_sqlite (connect [("T", ⟨["a"], [[SQLVal.text "x"]]⟩)])
          ["a"] [["x"]] "T").1).committed "T" = 1 := by
  have h1 : lookupTable (connect [("T", ⟨["a"], [[SQLVal.text "x"]]⟩)]).working "T"
      = some ⟨["a"], [[SQLVal.text "x"]]⟩ := rfl
  have h2 : (Table.cols ⟨["a"], [[SQLVal.text "x"]]⟩) = ["a"] := rfl
  have h3 : ∀ r ∈ [["x"]], List.length r = List.length ["a"] := by decide
  have h4 : tableCount (connect [("T", ⟨["a"], [[SQLVal.text "x"]]⟩)]).working "T" = 1 := rfl
  have hmain := import_idempotent_create (connect [("T", ⟨["a"], [[SQLVal.text "x"]]⟩)])
    ["a"] [["x"]] "T" ⟨["a"], [[SQLVal.text "x"]]⟩ h1 h2 h3 h4
  exact ⟨h1, h2, h3, h4, hmain.1, hmain.2.1, hmain.2.2.1, hmain.2.2.2⟩

/-- Stable descending insertion only reorders: the result is a permutation
of consing the element. -/
theorem insertDesc_perm (x : String × Nat) (l : List (String × Nat)) :
    List.Perm (insertDesc x l) (x :: l) := by
  induction l with
  | nil => exact List.Perm.refl _
  | cons y ys ih =>
      unfold insertDesc
      by_cases h : y.2 ≤ x.2
      · rw [if_pos h]
      · rw [if_neg h]
        exact (ih.cons y).trans (List.Perm.swap x y ys)

/-- The stable sort by count is a permutation of its input. -/
theorem sortCountDesc_perm (l : List (String × Nat)) :
    List.Perm (sortCountDesc l) l := by
  induction l with
  | nil => exact List.Perm.refl _
  | cons x xs ih => exact (insertDesc_perm x (sortCountDesc xs)).trans (ih.cons x)

/-- Inserting into a count-descending list keeps it count-descending. -/
theorem insertDesc_pairwise (x : String × Nat) (l : List (String × Nat))
    (h : List.Pairwise (fun a b => b.2 ≤ a.2) l) :
    List.Pairwise (fun a b => b.2 ≤ a.2) (insertDesc x l) := by
  induction l with
  | nil => simp [insertDesc]
  | cons y ys ih =>
      rw [List.pairwise_cons] at h
      obtain ⟨hy, hys⟩ := h
      unfold insertDesc
      by_cases hle : y.2 ≤ x.2
      · rw [if_pos hle]
        refine List.Pairwise.cons ?_ (List.Pairwise.cons hy hys)
        intro b hb
        rcases List.mem_cons.mp hb with rfl | hb
        · exact hle
        · exact Nat.le_trans (hy b hb) hle
      · rw [if_neg hle]
        refine List.Pairwise.cons ?_ (ih hys)
        intro b hb
        have hb2 : b = x ∨ b ∈ ys := by
          simpa using (insertDesc_perm x ys).mem_iff.mp hb
        rcases hb2 with rfl | hb2
        · exact Nat.le_of_lt (Nat.lt_of_not_le hle)
        · exact hy b hb2

/-- The sorted counter items are count-descending. -/
theorem sortCountDesc_pairwise (l : List (String × Nat)) :
    List.Pairwise (fun a b => b.2 ≤ a.2) (sortCountDesc l) := by
  induction l with
  | nil => simp [sortCountDesc]
  | cons x xs ih => exact insertDesc_pairwise x (sortCountDesc xs) ih

/-- Restricted to any one count value, descending insertion puts the new
pair in front of its count class and disturbs nothing else: the pairs it
passes have strictly greater counts. -/
theorem insertDesc_filter (x : String × Nat) (l : List (String × Nat)) (n : Nat) :
    (insertDesc x l).filter (fun p => p.2 == n)
      = if x.2 == n then x :: l.filter (fun p => p.2 == n)
        else l.filter (fun p => p.2 == n) := by
  induction l with
  | nil => cases hx : x.2 == n <;> simp [insertDesc, List.filter_cons, hx]
  | cons y ys ih =>
      unfold insertDesc
      by_cases hle : y.2 ≤ x.2
      · rw [if_pos hle]
        simp [List.filter_cons]
      · rw [if_neg hle]
        by_cases hx : (x.2 == n) = true
        · have hxn : x.2 = n := by simpa using hx
          have hyn : (y.2 == n) = false := by
            have hgt : x.2 < y.2 := Nat.lt_of_not_le hle
            simp only [beq_eq_false_iff_ne, ne_eq]
            omega
          simp [List.filter_cons, hyn, hx, ih]
        · have hx' : (x.2 == n) = false := by
            simpa using hx
          simp [List.filter_cons, ih, hx']

/-- Stability: for every count value, the stable sort keeps the pairs of
that count in their original (first-seen) order, exactly as
Counter.most_common does. -/
theorem sortCountDesc_filter (l : List (String × Nat)) (n : Nat) :
    (sortCountDesc l).filter (fun p => p.2 == n) = l.filter (fun p => p.2 == n) := by
  induction l with
  | nil => rfl
  | cons x xs ih =>
      unfold sortCountDesc
      rw [insertDesc_filter]
      by_cases hx : (x.2 == n) = true
      · simp [List.filter_cons, hx, ih]
      · have hx' : (x.2 == n) = false := by
          simpa using hx
        simp [List.filter_cons, hx', ih]

/-- Membership in the first-seen accumulator recursion. -/
theorem mem_firstSeenAux (q : String) (seen qs : List String) :
    q ∈ firstSeenAux seen qs ↔ q ∈ qs ∧ q ∉ seen := by
  induction qs generalizing seen with
  | nil => simp [firstSeenAux]
  | cons a as ih =>
      unfold firstSeenAux
      by_cases ha : a ∈ seen
      · rw [if_pos ha, ih]
        constructor
        · rintro ⟨h1, h2⟩
          exact ⟨List.mem_cons_of_mem a h1, h2⟩
        · rintro ⟨h1, h2⟩
          rcases List.mem_cons.mp h1 with rfl | h1
          · exact absurd ha h2
          · exact ⟨h1, h2⟩
      · rw [if_neg ha]
        constructor
        · intro h
          rcases List.mem_cons.mp h with rfl | h
          · exact ⟨List.mem_cons_self _ _, ha⟩
          · rw [ih] at h
            obtain ⟨h1, h2⟩ := h
            have h2' : q ∉ seen := fun hx => h2 (List.mem_cons_of_mem a hx)
            exact ⟨List.mem_cons_of_mem a h1, h2'⟩
        · rintro ⟨h1, h2⟩
          rcases List.mem_cons.mp h1 with rfl | h1
          · exact List.mem_cons_self _ _
          · by_cases hqa : q = a
            · subst hqa
              exact List.mem_cons_self _ _
            · apply List.mem_cons_of_mem
              rw [ih]
              refine ⟨h1, ?_⟩
              intro hx
              rcases List.mem_cons.mp hx with h' | h'
              · exact hqa h'
              · exact h2 h'

/-- A text is among the distinct first-seen texts iff it was logged. -/
theorem mem_firstSeen (q : String) (qs : List String) :
    q ∈ firstSeen qs ↔ q ∈ qs := by
  simp [firstSeen, mem_firstSeenAux]

/-- Claim C7: the analyzer groups the logged texts by exact equality and
counts them (every returned pair is a logged text with its exact count),
returns them in descending count order, keeps only highest counts (any
logged text missing from the result counts no more than every returned
pair), and returns min(n, number of distinct texts) pairs.  The tie order
is deterministic and is the order of the program: for every count value
the sorted pairs of that count keep the first-seen order of the counter
items, as Counter.most_common ties do; concretely the tied logs A, B and
Q2, Q1, Q1, Q2 rank in first-seen order, and on the log Q1, Q1, Q1, Q2
the top two are (Q1, 3) and (Q2, 1). -/
theorem top_queries_spec (qs : List String) (top_n : Nat) :
    (∀ p ∈ predict_most_repeatable_queries qs top_n, p.1 ∈ qs ∧ p.2 = qs.count p.1)
      ∧ List.Pairwise (fun a b : String × Nat => b.2 ≤ a.2)
          (predict_most_repeatable_queries qs top_n)
      ∧ (∀ q ∈ qs, (∀ p ∈ predict_most_repeatable_queries qs top_n, p.1 ≠ q) →
          ∀ p ∈ predict_most_repeatable_queries qs top_n, qs.count q ≤ p.2)
      ∧ (predict_most_repeatable_queries qs top_n).length
          = min top_n (firstSeen qs).length
      ∧ (∀ n : Nat, (sortCountDesc (counterItems qs)).filter (fun p => p.2 == n)
          = (counterItems qs).filter (fun p => p.2 == n))
      ∧ predict_most_repeatable_queries ["A", "B"] 2 = [("A", 1), ("B", 1)]
      ∧ predict_most_repeatable_queries ["Q2", "Q1", "Q1", "Q2"] 2
          = [("Q2", 2), ("Q1", 2)]
      ∧ predict_most_repeatable_queries ["Q1", "Q1", "Q1", "Q2"] 2
          = [("Q1", 3), ("Q2", 1)] := by
  have hperm := sortCountDesc_perm (counterItems qs)
  have hsorted := sortCountDesc_pairwise (counterItems qs)
  refine ⟨?_, ?_, ?_, ?_, fun n => sortCountDesc_filter (counterItems qs) n,
    by decide, by decide, ?_⟩
  · intro p hp
    have hmem : p ∈ sortCountDesc (counterItems qs) := List.mem_of_mem_take hp
    have hmem2 : p ∈ counterItems qs := hperm.mem_iff.mp hmem
    obtain ⟨q, hq, rfl⟩ := List.mem_map.mp hmem2
    exact ⟨(mem_firstSeen q qs).mp hq, rfl⟩
  · exact List.Pairwise.sublist (List.take_sublist _ _) hsorted
  · intro q hq hnot p hp
    have hqmem : (q, qs.count q) ∈ counterItems qs :=
      List.mem_map.mpr ⟨q, (mem_firstSeen q qs).mpr hq, rfl⟩
    have hqsort : (q, qs.count q) ∈ sortCountDesc (counterItems qs) :=
      hperm.mem_iff.mpr hqmem
    have hsplit := List.take_append_drop top_n (sortCountDesc (counterItems qs))
    have hdrop : (q, qs.count q) ∈ (sortCountDesc (counterItems qs)).drop top_n := by
      rcases List.mem_append.mp (by rw [hsplit]; exact hqsort) with h | h
      · exact absurd rfl (hnot _ h)
      · exact h
    have hpair : List.Pairwise (fun a b : String × Nat => b.2 ≤ a.2)
        ((sortCountDesc (counterItems qs)).take top_n
          ++ (sortCountDesc (counterItems qs)).drop top_n) := by
      rw [hsplit]
      exact hsorted
    exact (List.pairwise_append.mp hpair).2.2 p hp (q, qs.count q) hdrop
  · show (List.take top_n (sortCountDesc (counterItems qs))).length = _
    rw [List.length_take, hperm.length_eq]
    simp [counterItems]
  · decide

end SQlite
